import Mathlib

/-!
Calendar favourites and notification poller (`base_calendar.js`).

A shallow embedding of `addons/calendar/static/src/js/base_calendar.js`:

* JavaScript values, strict equality and plain objects with their property
  enumeration order (integer-like keys ascending, then the other keys in
  creation order);
* `reload_favorite_list`, `get_all_filters_ordered`, the `SidebarFilterM2O`
  combo-box, `initialize_m2o` / `reinitialize_m2o`, `destroy_filter`;
* of `add_filter` the loop that issues the create calls, the promise of
  `$.when`, and the text of its `return` statement, which does not parse;
* the failure handler and the timer callback of `get_next_notif`.

Promise chains are run to completion one step after the other; every call that
leaves the module (RPC, rendering, events) is appended to a log.
-/

namespace BaseCalendar

/-! ## JavaScript values and objects -/

/-- The JavaScript values that reach the comparisons of this module: `undefined`,
numbers holding an integer, and strings. -/
inductive JSVal where
  | undefined
  | num (n : Int)
  | str (s : String)
  deriving DecidableEq, Repr

/-- Strict equality `===`: values of different types are never equal. -/
def strictEq : JSVal → JSVal → Bool
  | .undefined, .undefined => true
  | .num a, .num b => a == b
  | .str a, .str b => a == b
  | _, _ => false

/-- A plain object whose property names are the decimal strings of integers
(`sidebar_items[filter_value]`, `display_value`).  A property name `String(k)`
is represented by `k`; the list keeps the properties in creation order, every
name once. -/
abbrev Obj (α : Type) := List (Int × α)

/-- The property key handed to callbacks (`_.each(obj, function (element, index)`):
the name itself, a string. -/
def keyString (k : Int) : JSVal := .str (toString k)

/-- Integer-like property names (array indices): `0 ≤ k < 2^32 - 1`. -/
def isArrayIndex (k : Int) : Bool := decide (0 ≤ k) && decide (k < 4294967295)

/-- Property read `o[k]`. -/
def Obj.get {α : Type} (o : Obj α) (k : Int) : Option α :=
  match o with
  | [] => none
  | (k', v) :: rest => if k' = k then some v else Obj.get rest k

/-- Property write `o[k] = v`: an existing property keeps its place, a new one
is created last. -/
def Obj.set {α : Type} (o : Obj α) (k : Int) (v : α) : Obj α :=
  match o with
  | [] => [(k, v)]
  | (k', v') :: rest => if k' = k then (k, v) :: rest else (k', v') :: Obj.set rest k v

/-- Own properties in enumeration order (`Object.keys`, `for ... in`): the
integer-like names in ascending numeric order, then the others in creation
order. -/
def Obj.ownProps {α : Type} (o : Obj α) : List (Int × α) :=
  (o.filter (fun p => isArrayIndex p.1)).insertionSort (fun a b => a.1 ≤ b.1)
    ++ o.filter (fun p => !isArrayIndex p.1)

/-- Enumeration order of the names, `_.keys(o)`. -/
def Obj.keys {α : Type} (o : Obj α) : List Int := o.ownProps.map Prod.fst

/-- Enumeration order of the values, `_.values(o)`. -/
def Obj.values {α : Type} (o : Obj α) : List α := o.ownProps.map Prod.snd

/-! ## Data model -/

/-- One sidebar row (`filter_item`).  `can_be_removed` is `none` when the
property is not set on the object. -/
structure FilterEntry where
  value : Int
  label : String
  color : Nat
  avatar_model : String
  is_checked : Bool
  can_be_removed : Option Bool := none
  deriving DecidableEq, Repr

/-- The fields of `session` read by this module.  Partner and user ids are
database ids, hence natural numbers. -/
structure Session where
  partner_id : Nat
  name : String
  uid : Nat
  deriving DecidableEq, Repr

/-- One record of `calendar.contacts` as returned by the query:
`partner_id` is the pair `[id, display name]`. -/
structure Contact where
  partner_id : Nat × String
  deriving DecidableEq, Repr

/-- Collaborators outside the module that the code calls without changing them:
the view's colour function and avatar model, the lazy translation `_lt`, the
base `get_all_filters_ordered` and the base `get_search_blacklist`. -/
structure Ext where
  get_color : Int → Nat
  avatar_model : String
  _lt : String → String
  super_get_all_filters_ordered : Obj FilterEntry → List FilterEntry
  super_get_search_blacklist : List JSVal

/-! ## `reload_favorite_list`: building the FilterSet -/

/-- The entry of the current user (lines 28-35). -/
def filter_item_me (x : Ext) (s : Session) : FilterEntry :=
  { value := (s.partner_id : Int)
    label := s.name ++ x._lt " [Me]"
    color := x.get_color (s.partner_id : Int)
    avatar_model := x.avatar_model
    is_checked := true }

/-- The entry "Everybody's calendars" (lines 38-44). -/
def filter_item_all (x : Ext) : FilterEntry :=
  { value := -1
    label := x._lt "Everybody's calendars"
    color := x.get_color (-1)
    avatar_model := x.avatar_model
    is_checked := false }

/-- The entry of one contact record (lines 53-61). -/
def filter_item_contact (x : Ext) (item : Contact) : FilterEntry :=
  { value := (item.partner_id.1 : Int)
    label := item.partner_id.2
    color := x.get_color (item.partner_id.1 : Int)
    avatar_model := x.avatar_model
    is_checked := true
    can_be_removed := some true }

/-- The loop `_.each(result, ...)` of lines 52-63. -/
def add_contacts (x : Ext) (sidebar_items : Obj FilterEntry) (result : List Contact) :
    Obj FilterEntry :=
  result.foldl
    (fun acc item => Obj.set acc (item.partner_id.1 : Int) (filter_item_contact x item))
    sidebar_items

/-- The object `sidebar_items` assigned to `self.all_filters` (lines 27-65). -/
def sidebar_items (x : Ext) (s : Session) (result : List Contact) : Obj FilterEntry :=
  add_contacts x
    (Obj.set (Obj.set [] (s.partner_id : Int) (filter_item_me x s)) (-1) (filter_item_all x))
    result

/-- Line 66, `$.map(self.all_filters, function (o) { return o.value; })`. -/
def now_filter_ids_of (all_filters : Obj FilterEntry) : List Int :=
  all_filters.values.map (fun o => o.value)

/-! ## `get_all_filters_ordered` -/

/-- The call `_.difference(array, others)`: the elements of `array` not among
`others`. -/
def difference {α : Type} [DecidableEq α] (array others : List α) : List α :=
  array.filter (fun v => !others.contains v)

/-- Lines 85-93.  `filters` is what the base method returned; `_.first` of an
empty list and a missing property are `undefined`, here `none`.  Objects are
compared by identity in `_.difference`; entries of one FilterSet differ in
`value`, so identity and equality of contents agree on them. -/
def get_all_filters_ordered (useContacts : Bool) (all_filters : Obj FilterEntry)
    (filters : List FilterEntry) : List (Option FilterEntry) :=
  if useContacts then
    let filter_me := all_filters.values.head?
    let filter_all := all_filters.get (-1)
    [filter_me] ++ difference (filters.map some) [filter_me, filter_all] ++ [filter_all]
  else
    filters.map some

/-- Every entry is stored under the name of its own `value`. -/
def KeyedByValue (o : Obj FilterEntry) : Prop := ∀ p ∈ o, p.2.value = p.1

/-! ## The combo-box `SidebarFilterM2O` -/

/-- The fields of the combo-box used here.  `filter_ids` is `none` until
`set_filter_ids` has run; `display_value` is the base widget's object of the
selected identifiers, identifier ↦ display name. -/
structure SidebarFilterM2O where
  filter_ids : Option (List Int)
  display_value : Obj String
  deriving DecidableEq, Repr

/-- Lines 101-103. -/
def SidebarFilterM2O.set_filter_ids (m : SidebarFilterM2O) (filter_ids : List Int) :
    SidebarFilterM2O :=
  { m with filter_ids := some filter_ids }

/-- Lines 98-100, `this._super.apply(this, arguments).concat(this.filter_ids)`:
`concat` appends the elements of an array argument and appends any other
argument (here `undefined`) as one element. -/
def SidebarFilterM2O.get_search_blacklist (x : Ext) (m : SidebarFilterM2O) : List JSVal :=
  match m.filter_ids with
  | some ids => x.super_get_search_blacklist ++ ids.map JSVal.num
  | none => x.super_get_search_blacklist ++ [JSVal.undefined]

/-- The call `_.pluck(this.view.all_filters, 'value')` of line 134. -/
def pluck_value (all_filters : Obj FilterEntry) : List Int :=
  all_filters.values.map (fun o => o.value)

/-! ## State, log and promise chains -/

/-- The fields of the calendar view read or written here. -/
structure CalendarView where
  useContacts : Bool
  all_filters : Obj FilterEntry
  now_filter_ids : List Int
  deriving DecidableEq, Repr

/-- The method `get_all_filters_ordered` of the extended view: `this._super()`
is the base method on the view's FilterSet. -/
def CalendarView.get_all_filters_ordered (v : CalendarView) (x : Ext) :
    List (Option FilterEntry) :=
  BaseCalendar.get_all_filters_ordered v.useContacts v.all_filters
    (x.super_get_all_filters_ordered v.all_filters)

/-- Calls that leave the module (RPC, rendering, dialog, events), and the entry
of `reload_favorite_list` and of `reinitialize_m2o`. -/
inductive Effect where
  | enter (fn : String)
  | query_contacts (uid : Nat)
  | events_loaded (filters : List (Option FilterEntry))
  | set_filters
  | dfm_destroy
  | m2o_appendTo (filter_ids : Option (List Int))
  | confirm_dialog
  | create (partner_id : JSVal)
  | unlink_from_partner_id (id : Int)
  | trigger_up (name : String)
  deriving DecidableEq, Repr

/-- The view, the sidebar's combo-box (the sidebar once `extraSideBar` has run
`initialize_m2o`), and the log of effects, oldest first. -/
structure World where
  view : CalendarView
  m2o : SidebarFilterM2O
  log : List Effect
  deriving DecidableEq, Repr

/-- What the server and the user answer during one invocation: whether
`session.is_bound` resolves, the records of the contacts query (`none`: the
query is rejected), whether the create call for a given `partner_id` resolves,
whether the unlink call resolves, whether the user confirms the dialog. -/
structure Replies where
  is_bound : Bool
  contacts : Option (List Contact)
  create : JSVal → Bool
  unlink : Bool
  confirm : Bool

/-- How a promise settles. -/
inductive Outcome where
  | resolved
  | rejected
  deriving DecidableEq, Repr

/-- How a call ends: the promise it builds settles as given, or it throws. -/
inductive Completion where
  | returned (promise : Outcome)
  | threw (error : String)
  deriving DecidableEq, Repr

/-- A promise-returning computation, run until its promise settles. -/
abbrev Task := World → Outcome × World

/-- The chain `p.then(f)` with a success callback only: `f` starts once `p` has
resolved and the chain settles as the promise `f` returns; a rejection of `p`
skips `f`. -/
def Task.andThen (p f : Task) : Task := fun w =>
  match p w with
  | (.resolved, w1) => f w1
  | (.rejected, w1) => (.rejected, w1)

/-- Append one effect to the log. -/
def World.emit (w : World) (e : Effect) : World := { w with log := w.log ++ [e] }

/-- Lines 20-72.  `self` is the view in both uses (`result.view` when called
with the sidebar, `result` when called with the view). -/
def reload_favorite_list (x : Ext) (s : Session) (r : Replies) : Task := fun w =>
  let w := w.emit (.enter "reload_favorite_list")
  if r.is_bound then
    let w := w.emit (.query_contacts s.uid)
    match r.contacts with
    | none => (.rejected, w)
    | some result =>
      let items := sidebar_items x s result
      let w := { w with view := { w.view with all_filters := items,
                                              now_filter_ids := now_filter_ids_of items } }
      let w := w.emit (.events_loaded (w.view.get_all_filters_ordered x))
      (.resolved, w.emit .set_filters)
  else (.rejected, w)

/-- Lines 118-137: a new combo-box, its exclusion list set from the view's
FilterSet, appended to the sidebar. -/
def initialize_m2o (w : World) : World :=
  let m2o : SidebarFilterM2O := { filter_ids := none, display_value := [] }
  let m2o := m2o.set_filter_ids (pluck_value w.view.all_filters)
  { w with m2o := m2o }.emit (.m2o_appendTo m2o.filter_ids)

/-- Lines 114-117. -/
def reinitialize_m2o (w : World) : World :=
  initialize_m2o ((w.emit (.enter "reinitialize_m2o")).emit .dfm_destroy)

/-- The call `this.trigger_up('reload_events')`. -/
def trigger_up (name : String) (w : World) : World := w.emit (.trigger_up name)

/-- A callback that returns no promise: the chain goes on at once. -/
def Task.ofSync (f : World → World) : Task := fun w => (.resolved, f w)

/-- The loop of lines 141-145 over `this.m2o.display_value`: `index` is the
property name, a string, compared with the number `session.partner_id` by
`!==`; every pushed call is issued at once. -/
def add_filter_defs (s : Session) (display_value : Obj String) : List JSVal :=
  (display_value.keys.map keyString).filter
    (fun index => !strictEq (.num (s.partner_id : Int)) index)

/-- The promise `$.when.apply(null, defs)`: resolved when every call resolves,
rejected as soon as one is rejected. -/
def when_all (r : Replies) (defs : List JSVal) : Outcome :=
  if defs.all r.create then .resolved else .rejected

/-- A value on which `.then` is called or that is passed to `.then`: a promise,
given by the computation that settles it, or a function, given by the
computation that calling it runs. -/
inductive Chained where
  | promise (run : Task)
  | function (run : Task)

/-- The method call `receiver.then(callback)`, giving the new promise.  On a
promise a function is chained as success callback (`Task.andThen`); an argument
that is no function is ignored and the new promise settles as the receiver.  A
function has no property `then`, so the call throws a `TypeError`. -/
def call_then (receiver callback : Chained) : Except String Task :=
  match receiver, callback with
  | .promise p, .function f => .ok (p.andThen f)
  | .promise p, .promise _ => .ok p
  | .function _, _ => .error "TypeError"

/-- The `return` statement of `add_filter`, lines 146-149, as written. -/
def add_filter_return : String :=
  "        return $.when.apply(null, defs)\n            .then(reload_favorite_list.bind(this, this)\n            .then(this.reinitialize_m2o.bind(this))\n            .then(this.trigger_up.bind(this, 'reload_events'));"

/-- The chain in the confirm callback of `destroy_filter`, lines 157-160, as
written. -/
def destroy_filter_chain_text : String :=
  "                self.ds_contacts.call('unlink_from_partner_id', [id])\n                    .then(reload_favorite_list.bind(self, self))\n                    .then(self.reinitialize_m2o.bind(self))\n                    .then(self.trigger_up.bind(self, 'reload_events'));"

/-- The parentheses left open after reading a piece of JavaScript that holds no
comment: `(` opens one, `)` closes one, the text of a single-quoted string is
skipped; `none` once a `)` closes nothing. -/
def open_parens : List Char → Bool → Nat → Option Nat
  | [], _, depth => some depth
  | c :: rest, true, depth => open_parens rest (c != Char.ofNat 39) depth
  | c :: rest, false, depth =>
    if c = Char.ofNat 39 then open_parens rest true depth
    else if c = '(' then open_parens rest false (depth + 1)
    else if c = ')' then
      match depth with
      | 0 => none
      | d + 1 => open_parens rest false d
    else open_parens rest false depth

/-- The call `self.ds_contacts.call('unlink_from_partner_id', [id])` of line 157. -/
def unlink_call (r : Replies) (id : Int) : Task := fun w =>
  (if r.unlink then .resolved else .rejected, w.emit (.unlink_from_partner_id id))

/-- The chain of lines 157-160, built when the dialog is confirmed. -/
def confirm_callback (x : Ext) (s : Session) (r : Replies) (id : Int) : Except String Task := do
  let reloaded ← call_then (.promise (unlink_call r id)) (.function (reload_favorite_list x s r))
  let rebuilt ← call_then (.promise reloaded) (.function (Task.ofSync reinitialize_m2o))
  call_then (.promise rebuilt) (.function (Task.ofSync (trigger_up "reload_events")))

/-- Lines 151-163: `id` is the `data-id` of the clicked row.  The result tells
how the confirm callback ends, `none` when the dialog is dismissed. -/
def destroy_filter (x : Ext) (s : Session) (r : Replies) (id : Int) (w : World) :
    Option Completion × World :=
  let w := w.emit .confirm_dialog
  if r.confirm then
    match confirm_callback x s r id with
    | .error e => (some (.threw e), w)
    | .ok promise =>
      let (o, w) := promise w
      (some (.returned o), w)
  else (none, w)

/-! ## Notification poller -/

/-- The error object of a failed poll: its `code`. -/
structure RpcError where
  code : JSVal
  deriving DecidableEq, Repr

/-- The failure event: whether `preventDefault` has been called on it. -/
structure FailEvent where
  defaultPrevented : Bool
  deriving DecidableEq, Repr

/-- The call `ev.preventDefault()`. -/
def FailEvent.preventDefault (_ev : FailEvent) : FailEvent := { defaultPrevented := true }

/-- The failure handler of lines 212-218. -/
def get_next_notif_fail (err : RpcError) (ev : FailEvent) : FailEvent :=
  if strictEq err.code (.num (-32098)) then ev.preventDefault else ev

/-- Modelled from the spec: the global error reporter, which is not part of
these files; a poll failure reaches it unless the failure was swallowed, that
is unless `preventDefault` was called on its event. -/
def reaches_global_reporter (ev : FailEvent) : Bool := !ev.defaultPrevented

/-- One record of a poll response. -/
structure NotifRecord where
  event_id : Int
  title : String
  message : String
  timer : Nat
  deriving DecidableEq, Repr

/-- A displayed `CalendarNotification` (lines 166-195): title, text and `eid`. -/
structure CalendarNotification where
  title : String
  text : String
  eid : Int
  deriving DecidableEq, Repr

/-- Modelled from the spec: the template `CalendarNotification` is not part of
these files; a displayed notification is tagged with its event id, so the
lookup `self.$(".eid_" + event_id)` finds the displayed notifications whose
`eid` is `event_id`. -/
def find_eid (displayed : List CalendarNotification) (event_id : Int) :
    List CalendarNotification :=
  displayed.filter (fun n => n.eid = event_id)

/-- The callback given to `setTimeout` on lines 204-209, on the list of the
displayed notifications. -/
def timer_callback (res : NotifRecord) (displayed : List CalendarNotification) :
    List CalendarNotification :=
  if (find_eid displayed res.event_id).length = 0 then
    displayed ++ [{ title := res.title, text := res.message, eid := res.event_id }]
  else displayed

/-- What happens between two states of the poller: a poll response arrives and
one timer per record is set; the timer at a position of the pending list fires;
the user closes the displayed notification at a position. -/
inductive PollEvent where
  | response (result : List NotifRecord)
  | fire (i : Nat)
  | close (i : Nat)
  deriving DecidableEq, Repr

/-- Pending timers and displayed notifications. -/
structure PollState where
  pending : List NotifRecord
  displayed : List CalendarNotification
  deriving DecidableEq, Repr

/-- One step of the poller (lines 202-211 and the close actions of lines
185-192). -/
def PollState.step (st : PollState) : PollEvent → PollState
  | .response result => { st with pending := st.pending ++ result }
  | .fire i =>
    match st.pending.get? i with
    | some res => { pending := st.pending.eraseIdx i
                    displayed := timer_callback res st.displayed }
    | none => st
  | .close i => { st with displayed := st.displayed.eraseIdx i }

/-- The poller after a sequence of events, from the state before the first
poll. -/
def PollState.run (events : List PollEvent) : PollState :=
  events.foldl PollState.step { pending := [], displayed := [] }

/-! ## Concrete inputs -/

/-- Collaborators for the concrete inputs: colours by residue, the partner
model, no translation, the base order of the filters is their enumeration
order, an empty base blacklist. -/
def demoExt : Ext :=
  { get_color := fun v => v.toNat % 24
    avatar_model := "res.partner"
    _lt := fun t => t
    super_get_all_filters_ordered := fun o => o.values
    super_get_search_blacklist := [] }

/-- As `demoExt`, the base order of the filters reversed. -/
def reversedExt : Ext :=
  { demoExt with super_get_all_filters_ordered := fun o => o.values.reverse }

/-- The current user is partner 7. -/
def demoSession : Session := { partner_id := 7, name := "Admin", uid := 1 }

/-- Every request succeeds and the server returns `contacts`. -/
def demoReplies (contacts : List Contact) : Replies :=
  { is_bound := true, contacts := some contacts, create := fun _ => true,
    unlink := true, confirm := true }

/-- Every create call is rejected. -/
def rejectingReplies : Replies :=
  { is_bound := true, contacts := some [], create := fun _ => false,
    unlink := true, confirm := true }

/-- A sidebar whose combo-box holds the selection `display_value`, before any
reload. -/
def demoWorld (display_value : Obj String) : World :=
  { view := { useContacts := true, all_filters := [], now_filter_ids := [] }
    m2o := { filter_ids := none, display_value := display_value }
    log := [] }

/-! ## Lemmas on objects -/

theorem Obj.get_set_self {α : Type} (o : Obj α) (k : Int) (v : α) :
    (Obj.set o k v).get k = some v := by
  induction o with
  | nil => simp [Obj.set, Obj.get]
  | cons p rest ih =>
    obtain ⟨k1, v1⟩ := p
    by_cases h : k1 = k
    · simp [Obj.set, Obj.get, h]
    · simp [Obj.set, Obj.get, h, ih]

theorem Obj.get_set_ne {α : Type} (o : Obj α) (k k' : Int) (v : α) (h : k' ≠ k) :
    (Obj.set o k v).get k' = o.get k' := by
  induction o with
  | nil => simp [Obj.set, Obj.get, Ne.symm h]
  | cons p rest ih =>
    obtain ⟨k1, v1⟩ := p
    by_cases h1 : k1 = k
    · subst h1
      simp [Obj.set, Obj.get, Ne.symm h]
    · simp [Obj.set, Obj.get, h1, ih]

theorem Obj.map_fst_set {α : Type} (o : Obj α) (k : Int) (v : α) :
    (Obj.set o k v).map Prod.fst =
      if k ∈ o.map Prod.fst then o.map Prod.fst else o.map Prod.fst ++ [k] := by
  induction o with
  | nil => simp [Obj.set]
  | cons p rest ih =>
    obtain ⟨k1, v1⟩ := p
    by_cases h1 : k1 = k
    · subst h1
      simp [Obj.set]
    · have h2 : ¬ k = k1 := fun e => h1 e.symm
      by_cases h3 : k ∈ rest.map Prod.fst
      · simp only [Obj.set, h1, if_false, List.map_cons, ih, h3, if_true, List.mem_cons,
          or_true]
      · simp only [Obj.set, h1, if_false, List.map_cons, ih, h3, List.mem_cons, h2,
          or_self, List.cons_append]

theorem Obj.mem_map_fst_set {α : Type} (o : Obj α) (k k' : Int) (v : α) :
    k' ∈ (Obj.set o k v).map Prod.fst ↔ k' = k ∨ k' ∈ o.map Prod.fst := by
  rw [Obj.map_fst_set]
  by_cases h : k ∈ o.map Prod.fst
  · rw [if_pos h]
    constructor
    · exact Or.inr
    · rintro (rfl | h')
      · exact h
      · exact h'
  · rw [if_neg h, List.mem_append, List.mem_singleton]
    exact or_comm

theorem Obj.nodup_map_fst_set {α : Type} (o : Obj α) (k : Int) (v : α)
    (h : (o.map Prod.fst).Nodup) : ((Obj.set o k v).map Prod.fst).Nodup := by
  rw [Obj.map_fst_set]
  by_cases hk : k ∈ o.map Prod.fst
  · rw [if_pos hk]
    exact h
  · rw [if_neg hk]
    refine List.Nodup.append h (List.nodup_singleton k) ?_
    intro a ha hb
    rw [List.mem_singleton] at hb
    exact hk (hb ▸ ha)

theorem Obj.mem_set {α : Type} (o : Obj α) (k : Int) (v : α) (p : Int × α)
    (h : p ∈ Obj.set o k v) : p = (k, v) ∨ p ∈ o := by
  induction o with
  | nil =>
    simp only [Obj.set, List.mem_singleton] at h
    exact Or.inl h
  | cons q rest ih =>
    obtain ⟨k1, v1⟩ := q
    by_cases h1 : k1 = k
    · simp only [Obj.set, h1, if_true, List.mem_cons] at h
      rcases h with h | h
      · exact Or.inl h
      · exact Or.inr (List.mem_cons_of_mem _ h)
    · simp only [Obj.set, h1, if_false, List.mem_cons] at h
      rcases h with h | h
      · exact Or.inr (h ▸ List.mem_cons_self _ _)
      · rcases ih h with h | h
        · exact Or.inl h
        · exact Or.inr (List.mem_cons_of_mem _ h)

theorem Obj.mem_of_get {α : Type} (o : Obj α) (k : Int) (v : α) (h : o.get k = some v) :
    (k, v) ∈ o := by
  induction o with
  | nil => simp [Obj.get] at h
  | cons q rest ih =>
    obtain ⟨k1, v1⟩ := q
    by_cases h1 : k1 = k
    · simp only [Obj.get, h1, if_true, Option.some.injEq] at h
      rw [h1, h]
      exact List.mem_cons_self _ _
    · simp only [Obj.get, h1, if_false] at h
      exact List.mem_cons_of_mem _ (ih h)

theorem Obj.get_of_mem {α : Type} (o : Obj α) (k : Int) (v : α)
    (hnd : (o.map Prod.fst).Nodup) (h : (k, v) ∈ o) : o.get k = some v := by
  induction o with
  | nil => simp at h
  | cons q rest ih =>
    obtain ⟨k1, v1⟩ := q
    rw [List.map_cons, List.nodup_cons] at hnd
    rcases List.mem_cons.1 h with h | h
    · cases h
      simp [Obj.get]
    · have hk : k1 ≠ k := by
        intro e
        apply hnd.1
        rw [e]
        exact List.mem_map.2 ⟨(k, v), h, rfl⟩
      simp only [Obj.get, hk, if_false]
      exact ih hnd.2 h

theorem Obj.ownProps_perm {α : Type} (o : Obj α) : o.ownProps.Perm o :=
  ((List.perm_insertionSort _ _).append_right _).trans (List.filter_append_perm _ o)

theorem Obj.keys_perm {α : Type} (o : Obj α) : o.keys.Perm (o.map Prod.fst) :=
  (Obj.ownProps_perm o).map Prod.fst

theorem Obj.values_perm {α : Type} (o : Obj α) : o.values.Perm (o.map Prod.snd) :=
  (Obj.ownProps_perm o).map Prod.snd

/-! ## Lemmas on the FilterSet built by `reload_favorite_list` -/

theorem add_contacts_cons (x : Ext) (acc : Obj FilterEntry) (c : Contact)
    (rest : List Contact) :
    add_contacts x acc (c :: rest) =
      add_contacts x (Obj.set acc (c.partner_id.1 : Int) (filter_item_contact x c)) rest :=
  rfl

theorem add_contacts_mem_map_fst (x : Ext) (result : List Contact) :
    ∀ (acc : Obj FilterEntry) (k : Int),
      k ∈ (add_contacts x acc result).map Prod.fst ↔
        k ∈ acc.map Prod.fst ∨ ∃ c ∈ result, (c.partner_id.1 : Int) = k := by
  induction result with
  | nil => intro acc k; simp [add_contacts]
  | cons c rest ih =>
    intro acc k
    rw [add_contacts_cons, ih, Obj.mem_map_fst_set]
    constructor
    · rintro ((h | h) | ⟨c', hc', h⟩)
      · exact Or.inr ⟨c, List.mem_cons_self _ _, h.symm⟩
      · exact Or.inl h
      · exact Or.inr ⟨c', List.mem_cons_of_mem _ hc', h⟩
    · rintro (h | ⟨c', hc', h⟩)
      · exact Or.inl (Or.inr h)
      · rcases List.mem_cons.1 hc' with e | hc'
        · subst e
          exact Or.inl (Or.inl h.symm)
        · exact Or.inr ⟨c', hc', h⟩

theorem add_contacts_nodup (x : Ext) (result : List Contact) :
    ∀ acc : Obj FilterEntry, (acc.map Prod.fst).Nodup →
      ((add_contacts x acc result).map Prod.fst).Nodup := by
  induction result with
  | nil => intro acc h; exact h
  | cons c rest ih =>
    intro acc h
    rw [add_contacts_cons]
    exact ih _ (Obj.nodup_map_fst_set acc _ _ h)

theorem add_contacts_keyed (x : Ext) (result : List Contact) :
    ∀ acc : Obj FilterEntry, KeyedByValue acc → KeyedByValue (add_contacts x acc result) := by
  induction result with
  | nil => intro acc h; exact h
  | cons c rest ih =>
    intro acc h
    rw [add_contacts_cons]
    apply ih
    intro p hp
    rcases Obj.mem_set acc _ _ p hp with e | hp
    · rw [e]
      rfl
    · exact h p hp

theorem add_contacts_get_of_not_mem (x : Ext) (result : List Contact) :
    ∀ (acc : Obj FilterEntry) (k : Int), (∀ c ∈ result, (c.partner_id.1 : Int) ≠ k) →
      (add_contacts x acc result).get k = acc.get k := by
  induction result with
  | nil => intro acc k _; rfl
  | cons c rest ih =>
    intro acc k h
    rw [add_contacts_cons, ih _ k (fun c' hc' => h c' (List.mem_cons_of_mem _ hc'))]
    exact Obj.get_set_ne acc _ k _ (Ne.symm (h c (List.mem_cons_self _ _)))

theorem add_contacts_get_of_mem (x : Ext) (result : List Contact) :
    ∀ (acc : Obj FilterEntry) (c : Contact), c ∈ result →
      ∃ c' ∈ result, c'.partner_id.1 = c.partner_id.1 ∧
        (add_contacts x acc result).get (c.partner_id.1 : Int)
          = some (filter_item_contact x c') := by
  induction result with
  | nil => intro acc c h; simp at h
  | cons c0 rest ih =>
    intro acc c hc
    rw [add_contacts_cons]
    by_cases hex : ∃ c1 ∈ rest, c1.partner_id.1 = c.partner_id.1
    · obtain ⟨c1, hc1, e1⟩ := hex
      obtain ⟨c', hc', e', hget⟩ := ih (Obj.set acc _ (filter_item_contact x c0)) c1 hc1
      refine ⟨c', List.mem_cons_of_mem _ hc', e'.trans e1, ?_⟩
      rw [← e1]
      exact hget
    · have hc0 : c = c0 := by
        rcases List.mem_cons.1 hc with e | h
        · exact e
        · exact absurd ⟨c, h, rfl⟩ hex
      subst hc0
      refine ⟨c, List.mem_cons_self _ _, rfl, ?_⟩
      rw [add_contacts_get_of_not_mem x rest _ _ ?_]
      · exact Obj.get_set_self acc _ _
      · intro c1 hc1 e
        exact hex ⟨c1, hc1, by exact_mod_cast e⟩

theorem base_items_eq (x : Ext) (s : Session) :
    Obj.set (Obj.set [] (s.partner_id : Int) (filter_item_me x s)) (-1) (filter_item_all x)
      = [((s.partner_id : Int), filter_item_me x s), (-1, filter_item_all x)] := by
  have h : ¬ ((s.partner_id : Int) = -1) := by omega
  simp [Obj.set, h]

theorem sidebar_items_eq (x : Ext) (s : Session) (result : List Contact) :
    sidebar_items x s result =
      add_contacts x [((s.partner_id : Int), filter_item_me x s), (-1, filter_item_all x)]
        result := by
  rw [sidebar_items, base_items_eq]

theorem sidebar_items_mem_map_fst (x : Ext) (s : Session) (result : List Contact) (k : Int) :
    k ∈ (sidebar_items x s result).map Prod.fst ↔
      k = (s.partner_id : Int) ∨ k = -1 ∨ ∃ c ∈ result, (c.partner_id.1 : Int) = k := by
  rw [sidebar_items_eq, add_contacts_mem_map_fst]
  simp [or_assoc]

theorem sidebar_items_nodup (x : Ext) (s : Session) (result : List Contact) :
    ((sidebar_items x s result).map Prod.fst).Nodup := by
  rw [sidebar_items_eq]
  apply add_contacts_nodup
  have h : ¬ ((s.partner_id : Int) = -1) := by omega
  simp [h]

theorem sidebar_items_keyed (x : Ext) (s : Session) (result : List Contact) :
    KeyedByValue (sidebar_items x s result) := by
  rw [sidebar_items_eq]
  apply add_contacts_keyed
  intro p hp
  simp only [List.mem_cons, List.mem_singleton, List.not_mem_nil, or_false] at hp
  rcases hp with e | e <;> rw [e] <;> rfl

theorem sidebar_items_get_all (x : Ext) (s : Session) (result : List Contact) :
    (sidebar_items x s result).get (-1) = some (filter_item_all x) := by
  rw [sidebar_items_eq, add_contacts_get_of_not_mem]
  · have h : ¬ ((s.partner_id : Int) = -1) := by omega
    simp [Obj.get, h]
  · intro c _
    omega

theorem sidebar_items_get_me (x : Ext) (s : Session) (result : List Contact)
    (h : ∀ c ∈ result, c.partner_id.1 ≠ s.partner_id) :
    (sidebar_items x s result).get (s.partner_id : Int) = some (filter_item_me x s) := by
  rw [sidebar_items_eq, add_contacts_get_of_not_mem]
  · simp [Obj.get]
  · intro c hc e
    exact h c hc (by exact_mod_cast e)

theorem Obj.mem_keys {α : Type} (o : Obj α) (k : Int) :
    k ∈ o.keys ↔ k ∈ o.map Prod.fst :=
  (Obj.keys_perm o).mem_iff

theorem Obj.keys_nodup {α : Type} (o : Obj α) (h : (o.map Prod.fst).Nodup) : o.keys.Nodup :=
  (Obj.keys_perm o).nodup_iff.2 h

/-- In an object whose names are distinct and whose entries are stored under
their `value`, the entries with a given `value` are the one entry read under
that name. -/
theorem values_filter_eq_singleton (o : Obj FilterEntry) (k : Int) (e : FilterEntry)
    (hnd : (o.map Prod.fst).Nodup) (hk : KeyedByValue o) (hget : o.get k = some e) :
    o.values.filter (fun f => decide (f.value = k)) = [e] := by
  have hmem : (k, e) ∈ o := Obj.mem_of_get o k e hget
  have hvnd : (o.map Prod.snd).Nodup := by
    apply List.Nodup.of_map FilterEntry.value
    have : (o.map Prod.snd).map FilterEntry.value = o.map Prod.fst := by
      rw [List.map_map]
      apply List.map_congr_left
      intro p hp
      exact hk p hp
    rw [this]
    exact hnd
  have hnd2 : (o.values.filter (fun f => decide (f.value = k))).Nodup :=
    ((Obj.values_perm o).nodup_iff.2 hvnd).filter _
  apply List.Perm.eq_singleton
  rw [List.perm_ext_iff_of_nodup hnd2 (List.nodup_singleton e)]
  intro f
  rw [List.mem_filter, (Obj.values_perm o).mem_iff, List.mem_singleton, List.mem_map]
  constructor
  · rintro ⟨⟨p, hp, rfl⟩, hv⟩
    have hv' : p.2.value = k := of_decide_eq_true hv
    have hp1 : p.1 = k := (hk p hp).symm.trans hv'
    have : o.get k = some p.2 := Obj.get_of_mem o k p.2 hnd (by rw [← hp1]; exact hp)
    rw [hget] at this
    exact (Option.some.inj this).symm
  · rintro rfl
    refine ⟨⟨(k, f), hmem, rfl⟩, ?_⟩
    exact decide_eq_true (hk (k, f) hmem)

/-! ## `reload_favorite_list` on the state -/

theorem reload_outcome (x : Ext) (s : Session) (r : Replies) (w : World)
    (result : List Contact) (hb : r.is_bound = true) (hc : r.contacts = some result) :
    (reload_favorite_list x s r w).1 = .resolved := by
  simp [reload_favorite_list, hb, hc]

theorem reload_all_filters (x : Ext) (s : Session) (r : Replies) (w : World)
    (result : List Contact) (hb : r.is_bound = true) (hc : r.contacts = some result) :
    (reload_favorite_list x s r w).2.view.all_filters = sidebar_items x s result := by
  simp [reload_favorite_list, hb, hc, World.emit]

theorem reload_now_filter_ids (x : Ext) (s : Session) (r : Replies) (w : World)
    (result : List Contact) (hb : r.is_bound = true) (hc : r.contacts = some result) :
    (reload_favorite_list x s r w).2.view.now_filter_ids
      = (sidebar_items x s result).values.map (fun o => o.value) := by
  simp [reload_favorite_list, hb, hc, World.emit, now_filter_ids_of]

/-! ## Claims on the FilterSet -/

/-- C1 (amended): after a successful `reload_favorite_list`, for every
current-user partner id and every returned contact list, the FilterSet holds
exactly one entry whose value is the current user's partner id; that entry is
checked, and its `can_be_removed` is not set exactly when no returned contact
record is for the current user's own partner.  The FilterSet holds exactly one
entry whose value is -1, unchecked and with `can_be_removed` not set. -/
theorem C1_reload_me_and_everybody (x : Ext) (s : Session) (r : Replies) (w : World)
    (result : List Contact) (hb : r.is_bound = true) (hc : r.contacts = some result) :
    (reload_favorite_list x s r w).1 = .resolved ∧
    (∃ e, (reload_favorite_list x s r w).2.view.all_filters.values.filter
            (fun f => decide (f.value = (s.partner_id : Int))) = [e] ∧
          e.is_checked = true ∧
          (e.can_be_removed = none ↔ ∀ c ∈ result, c.partner_id.1 ≠ s.partner_id)) ∧
    (∃ e, (reload_favorite_list x s r w).2.view.all_filters.values.filter
            (fun f => decide (f.value = -1)) = [e] ∧
          e.is_checked = false ∧ e.can_be_removed = none) := by
  rw [reload_all_filters x s r w result hb hc]
  refine ⟨reload_outcome x s r w result hb hc, ?_, ⟨filter_item_all x, ?_, rfl, rfl⟩⟩
  · by_cases hown : ∃ c ∈ result, c.partner_id.1 = s.partner_id
    · obtain ⟨c, hcm, e⟩ := hown
      obtain ⟨c', _, _, hget⟩ := add_contacts_get_of_mem x result
        [((s.partner_id : Int), filter_item_me x s), (-1, filter_item_all x)] c hcm
      rw [e, ← sidebar_items_eq] at hget
      refine ⟨filter_item_contact x c', ?_, rfl, ?_⟩
      · exact values_filter_eq_singleton _ _ _ (sidebar_items_nodup x s result)
          (sidebar_items_keyed x s result) hget
      · constructor
        · intro h
          simp [filter_item_contact] at h
        · intro h
          exact absurd e (h c hcm)
    · have hself : ∀ c ∈ result, c.partner_id.1 ≠ s.partner_id := by
        intro c hcm e
        exact hown ⟨c, hcm, e⟩
      refine ⟨filter_item_me x s, ?_, rfl, ?_⟩
      · exact values_filter_eq_singleton _ _ _ (sidebar_items_nodup x s result)
          (sidebar_items_keyed x s result) (sidebar_items_get_me x s result hself)
      · exact ⟨fun _ => hself, fun _ => rfl⟩
  · exact values_filter_eq_singleton _ _ _ (sidebar_items_nodup x s result)
      (sidebar_items_keyed x s result) (sidebar_items_get_all x s result)

/-- C1, witness: current user 7, the server returns the contact (12, "Alice");
the reload succeeds and the entries of value 7 and of value -1 are the two
fixed ones. -/
theorem C1_reload_me_and_everybody_witness :
    ((demoReplies [{ partner_id := (12, "Alice") }]).is_bound = true ∧
      (demoReplies [{ partner_id := (12, "Alice") }]).contacts
        = some [{ partner_id := (12, "Alice") }]) ∧
    (reload_favorite_list demoExt demoSession (demoReplies [{ partner_id := (12, "Alice") }])
        (demoWorld [])).1 = .resolved ∧
    (∃ e, (reload_favorite_list demoExt demoSession
              (demoReplies [{ partner_id := (12, "Alice") }])
              (demoWorld [])).2.view.all_filters.values.filter
            (fun f => decide (f.value = (demoSession.partner_id : Int))) = [e] ∧
          e.is_checked = true ∧
          (e.can_be_removed = none ↔
            ∀ c ∈ [({ partner_id := (12, "Alice") } : Contact)],
              c.partner_id.1 ≠ demoSession.partner_id)) ∧
    (∃ e, (reload_favorite_list demoExt demoSession
              (demoReplies [{ partner_id := (12, "Alice") }])
              (demoWorld [])).2.view.all_filters.values.filter
            (fun f => decide (f.value = -1)) = [e] ∧
          e.is_checked = false ∧ e.can_be_removed = none) :=
  ⟨⟨rfl, rfl⟩,
    C1_reload_me_and_everybody demoExt demoSession
      (demoReplies [{ partner_id := (12, "Alice") }]) (demoWorld [])
      [{ partner_id := (12, "Alice") }] rfl rfl⟩

/-- C1, counterexample: current user 7 and a returned contact record for
partner 7 itself.  The reload succeeds and the one entry whose value is 7 is
the contact's: `can_be_removed` is set to `true`. -/
theorem C1_counterexample_own_partner_as_contact :
    (reload_favorite_list demoExt demoSession (demoReplies [{ partner_id := (7, "Admin") }])
        (demoWorld [])).1 = .resolved ∧
    (reload_favorite_list demoExt demoSession (demoReplies [{ partner_id := (7, "Admin") }])
        (demoWorld [])).2.view.all_filters.values.filter
        (fun f => decide (f.value = (demoSession.partner_id : Int)))
      = [{ value := 7, label := "Admin", color := 7, avatar_model := "res.partner",
           is_checked := true, can_be_removed := some true }] := by
  decide

theorem add_contacts_append (x : Ext) (acc : Obj FilterEntry) (l1 l2 : List Contact) :
    add_contacts x acc (l1 ++ l2) = add_contacts x (add_contacts x acc l1) l2 := by
  simp [add_contacts, List.foldl_append]

/-- A record after which no record of the same partner follows decides the
entry of that partner. -/
theorem add_contacts_get_last (x : Ext) (acc : Obj FilterEntry) (pre : List Contact)
    (c : Contact) (post : List Contact)
    (h : ∀ d ∈ post, d.partner_id.1 ≠ c.partner_id.1) :
    (add_contacts x acc (pre ++ c :: post)).get (c.partner_id.1 : Int)
      = some (filter_item_contact x c) := by
  rw [add_contacts_append, add_contacts_cons, add_contacts_get_of_not_mem]
  · exact Obj.get_set_self _ _ _
  · intro d hd e
    exact h d hd (by exact_mod_cast e)

/-- Among the records of a partner that occurs in the list there is a last one. -/
theorem exists_last_record (result : List Contact) (k : Nat) :
    (∃ c ∈ result, c.partner_id.1 = k) →
      ∃ pre last post, result = pre ++ last :: post ∧ last.partner_id.1 = k ∧
        ∀ d ∈ post, d.partner_id.1 ≠ k := by
  induction result with
  | nil => rintro ⟨c, hc, _⟩; simp at hc
  | cons c0 rest ih =>
    intro h
    by_cases hrest : ∃ c ∈ rest, c.partner_id.1 = k
    · obtain ⟨pre, last, post, e, hk, hpost⟩ := ih hrest
      exact ⟨c0 :: pre, last, post, by rw [e]; rfl, hk, hpost⟩
    · obtain ⟨c, hc, hk⟩ := h
      have hc0 : c = c0 := by
        rcases List.mem_cons.1 hc with e | h'
        · exact e
        · exact absurd ⟨c, h', hk⟩ hrest
      subst hc0
      exact ⟨[], c, rest, rfl, hk, fun d hd e => hrest ⟨d, hd, e⟩⟩

/-- C9 (amended): after a successful `reload_favorite_list` the names of the
FilterSet are exactly the current user's partner id, -1 and the partner ids of
the returned contact records, each once; for every returned contact record the
entry under its partner id has that id as value, is checked and removable, and
its label is the display name of the last returned record with that partner
id; `now_filter_ids` is the list of the values of the FilterSet. -/
theorem C9_reload_builds_filter_set (x : Ext) (s : Session) (r : Replies) (w : World)
    (result : List Contact) (hb : r.is_bound = true) (hc : r.contacts = some result) :
    (∀ k : Int, k ∈ (reload_favorite_list x s r w).2.view.all_filters.keys ↔
        k = (s.partner_id : Int) ∨ k = -1 ∨ ∃ c ∈ result, (c.partner_id.1 : Int) = k) ∧
    (reload_favorite_list x s r w).2.view.all_filters.keys.Nodup ∧
    (∀ c ∈ result, ∃ e pre last post,
        result = pre ++ last :: post ∧ last.partner_id.1 = c.partner_id.1 ∧
        (∀ d ∈ post, d.partner_id.1 ≠ c.partner_id.1) ∧
        (reload_favorite_list x s r w).2.view.all_filters.get (c.partner_id.1 : Int) = some e ∧
        e.value = (c.partner_id.1 : Int) ∧ e.label = last.partner_id.2 ∧
        e.is_checked = true ∧ e.can_be_removed = some true) ∧
    (reload_favorite_list x s r w).2.view.now_filter_ids
      = (reload_favorite_list x s r w).2.view.all_filters.values.map (fun o => o.value) := by
  rw [reload_now_filter_ids x s r w result hb hc, reload_all_filters x s r w result hb hc]
  refine ⟨?_, Obj.keys_nodup _ (sidebar_items_nodup x s result), ?_, rfl⟩
  · intro k
    rw [Obj.mem_keys]
    exact sidebar_items_mem_map_fst x s result k
  · intro c hcm
    obtain ⟨pre, last, post, e, hk, hpost⟩ :=
      exists_last_record result c.partner_id.1 ⟨c, hcm, rfl⟩
    have hget := add_contacts_get_last x
      [((s.partner_id : Int), filter_item_me x s), (-1, filter_item_all x)] pre last post
      (by rw [hk]; exact hpost)
    rw [← e, ← sidebar_items_eq, hk] at hget
    refine ⟨filter_item_contact x last, pre, last, post, e, hk, hpost, hget, ?_, rfl, rfl, rfl⟩
    show ((last.partner_id.1 : Nat) : Int) = (c.partner_id.1 : Int)
    rw [hk]

/-- C9, counterexample: current user 7, returned records (12, "Alice") and
(12, "Alicia").  The reload succeeds and the entry under 12, the entry of the
record (12, "Alice"), is labelled "Alicia". -/
theorem C9_counterexample_two_records_one_partner :
    (reload_favorite_list demoExt demoSession
        (demoReplies [{ partner_id := (12, "Alice") }, { partner_id := (12, "Alicia") }])
        (demoWorld [])).1 = .resolved ∧
    (reload_favorite_list demoExt demoSession
        (demoReplies [{ partner_id := (12, "Alice") }, { partner_id := (12, "Alicia") }])
        (demoWorld [])).2.view.all_filters.get 12
      = some { value := 12, label := "Alicia", color := 12, avatar_model := "res.partner",
               is_checked := true, can_be_removed := some true } := by
  decide

/-- C9, witness: current user 7 and returned contacts [(12, "Alice")] give the
FilterSet {7: checked, not removable; -1: unchecked, not removable;
12: "Alice", checked, removable}, and `now_filter_ids` = [7, 12, -1]. -/
theorem C9_reload_builds_filter_set_witness :
    (reload_favorite_list demoExt demoSession (demoReplies [{ partner_id := (12, "Alice") }])
        (demoWorld [])).2.view.all_filters
      = [(7, { value := 7, label := "Admin [Me]", color := 7, avatar_model := "res.partner",
               is_checked := true, can_be_removed := none }),
         (-1, { value := -1, label := "Everybody's calendars", color := 0,
                avatar_model := "res.partner", is_checked := false, can_be_removed := none }),
         (12, { value := 12, label := "Alice", color := 12, avatar_model := "res.partner",
                is_checked := true, can_be_removed := some true })] ∧
    (reload_favorite_list demoExt demoSession (demoReplies [{ partner_id := (12, "Alice") }])
        (demoWorld [])).2.view.now_filter_ids = [7, 12, -1] ∧
    (reload_favorite_list demoExt demoSession (demoReplies [{ partner_id := (12, "Alice") }])
        (demoWorld [])).2.view.now_filter_ids
      = (reload_favorite_list demoExt demoSession
          (demoReplies [{ partner_id := (12, "Alice") }])
          (demoWorld [])).2.view.all_filters.values.map (fun o => o.value) :=
  ⟨by decide, by decide,
    (C9_reload_builds_filter_set demoExt demoSession
      (demoReplies [{ partner_id := (12, "Alice") }]) (demoWorld [])
      [{ partner_id := (12, "Alice") }] rfl rfl).2.2.2⟩

/-! ## Claims on `get_all_filters_ordered` -/

theorem Obj.set_cons_head {α : Type} (k0 : Int) (v0 : α) (rest : Obj α) (k : Int) (v : α) :
    ∃ v1 rest1, Obj.set ((k0, v0) :: rest) k v = (k0, v1) :: rest1 := by
  by_cases h : k0 = k
  · exact ⟨v, rest, by simp [Obj.set, h]⟩
  · exact ⟨v0, Obj.set rest k v, by simp [Obj.set, h]⟩

theorem add_contacts_head (x : Ext) (result : List Contact) :
    ∀ (k0 : Int) (v0 : FilterEntry) (rest : Obj FilterEntry),
      ∃ v1 rest1, add_contacts x ((k0, v0) :: rest) result = (k0, v1) :: rest1 := by
  induction result with
  | nil => intro k0 v0 rest; exact ⟨v0, rest, rfl⟩
  | cons c cs ih =>
    intro k0 v0 rest
    rw [add_contacts_cons]
    obtain ⟨v1, rest1, e⟩ := Obj.set_cons_head k0 v0 rest (c.partner_id.1 : Int)
      (filter_item_contact x c)
    rw [e]
    exact ih k0 v1 rest1

/-- The first property in enumeration order is integer-like, or it is the
property created first. -/
theorem Obj.ownProps_head {α : Type} (k0 : Int) (v0 : α) (rest : Obj α) :
    ∃ p, Obj.ownProps ((k0, v0) :: rest) = p :: (Obj.ownProps ((k0, v0) :: rest)).tail ∧
      (isArrayIndex p.1 = true ∨ p.1 = k0) := by
  cases hs : (List.filter (fun p : Int × α => isArrayIndex p.1) ((k0, v0) :: rest)).insertionSort
      (fun a b => a.1 ≤ b.1) with
  | nil =>
    have hnil : List.filter (fun p : Int × α => isArrayIndex p.1) ((k0, v0) :: rest) = [] :=
      List.Perm.eq_nil ((List.perm_insertionSort _ _).symm.trans (by rw [hs]))
    have hk0 : isArrayIndex k0 = false := by
      by_contra hne
      have hin : (k0, v0) ∈ List.filter (fun p : Int × α => isArrayIndex p.1)
          ((k0, v0) :: rest) :=
        List.mem_filter.2 ⟨List.mem_cons_self _ _, by simpa using hne⟩
      rw [hnil] at hin
      exact List.not_mem_nil _ hin
    refine ⟨(k0, v0), ?_, Or.inr rfl⟩
    unfold Obj.ownProps
    rw [hs]
    simp [List.filter_cons, hk0]
  | cons a t =>
    refine ⟨a, ?_, Or.inl ?_⟩
    · simp [Obj.ownProps, hs]
    · have hin : a ∈ List.filter (fun p : Int × α => isArrayIndex p.1) ((k0, v0) :: rest) := by
        rw [← (List.perm_insertionSort (fun a b : Int × α => a.1 ≤ b.1) _).mem_iff, hs]
        exact List.mem_cons_self _ _
      exact (List.mem_filter.1 hin).2

/-- In a FilterSet built by `reload_favorite_list` the first entry in
enumeration order exists and its value is not -1. -/
theorem sidebar_items_first (x : Ext) (s : Session) (result : List Contact) :
    ∃ me, (sidebar_items x s result).values.head? = some me ∧
      me ∈ (sidebar_items x s result).values ∧ me.value ≠ -1 := by
  obtain ⟨v1, rest1, e⟩ := add_contacts_head x result (s.partner_id : Int)
    (filter_item_me x s) [(-1, filter_item_all x)]
  have hkeyed := sidebar_items_keyed x s result
  rw [sidebar_items_eq] at hkeyed ⊢
  rw [e] at hkeyed ⊢
  obtain ⟨p, hp, hidx⟩ := Obj.ownProps_head (s.partner_id : Int) v1 rest1
  have hpm : p ∈ Obj.ownProps (((s.partner_id : Int), v1) :: rest1) := by
    rw [hp]
    exact List.mem_cons_self _ _
  refine ⟨p.2, ?_, List.mem_map.2 ⟨p, hpm, rfl⟩, ?_⟩
  · rw [Obj.values, hp]
    rfl
  · rw [hkeyed p ((Obj.ownProps_perm _).mem_iff.1 hpm)]
    rcases hidx with h | h
    · intro e1
      rw [e1] at h
      exact absurd h (by decide)
    · rw [h]
      omega

theorem Obj.values_nodup (o : Obj FilterEntry) (hnd : (o.map Prod.fst).Nodup)
    (hk : KeyedByValue o) : o.values.Nodup := by
  apply (Obj.values_perm o).nodup_iff.2
  apply List.Nodup.of_map FilterEntry.value
  have : (o.map Prod.snd).map FilterEntry.value = o.map Prod.fst := by
    rw [List.map_map]
    apply List.map_congr_left
    intro p hp
    exact hk p hp
  rw [this]
  exact hnd

theorem Obj.mem_values_of_get {α : Type} (o : Obj α) (k : Int) (v : α)
    (h : o.get k = some v) : v ∈ o.values :=
  (Obj.values_perm o).mem_iff.2 (List.mem_map.2 ⟨(k, v), Obj.mem_of_get o k v h, rfl⟩)

theorem difference_map_some (filters : List FilterEntry) (me all : FilterEntry) :
    difference (filters.map some) [some me, some all]
      = (filters.filter (fun f => decide (f ≠ me ∧ f ≠ all))).map some := by
  rw [difference, List.filter_map]
  congr 1
  apply List.filter_congr
  intro f _
  by_cases h1 : f = me
  · simp [h1]
  · by_cases h2 : f = all
    · simp [h2]
    · simp [h1, h2]

/-- The reordering of a duplicate-free list that holds both `me` and `all`. -/
theorem reorder_perm (filters : List FilterEntry) (me all : FilterEntry)
    (hnd : filters.Nodup) (hme : me ∈ filters) (hall : all ∈ filters) (hne : me ≠ all) :
    ([me] ++ filters.filter (fun f => decide (f ≠ me ∧ f ≠ all)) ++ [all]).Perm filters ∧
    ([me] ++ filters.filter (fun f => decide (f ≠ me ∧ f ≠ all)) ++ [all]).Nodup := by
  have hout : ([me] ++ filters.filter (fun f => decide (f ≠ me ∧ f ≠ all)) ++ [all]).Nodup := by
    rw [List.append_assoc, List.singleton_append, List.nodup_cons]
    constructor
    · intro hm
      rcases List.mem_append.1 hm with h | h
      · have := of_decide_eq_true (List.mem_filter.1 h).2
        exact this.1 rfl
      · exact hne (List.mem_singleton.1 h)
    · refine List.Nodup.append (hnd.filter _) (List.nodup_singleton all) ?_
      intro a ha hb
      rw [List.mem_singleton] at hb
      have := of_decide_eq_true (List.mem_filter.1 ha).2
      exact this.2 hb
  refine ⟨?_, hout⟩
  rw [List.perm_ext_iff_of_nodup hout hnd]
  intro f
  simp only [List.mem_append, List.mem_singleton, List.mem_filter, decide_eq_true_eq]
  constructor
  · rintro ((h | ⟨h, _⟩) | h)
    · rw [h]; exact hme
    · exact h
    · rw [h]; exact hall
  · intro h
    by_cases h1 : f = me
    · exact Or.inl (Or.inl h1)
    · by_cases h2 : f = all
      · exact Or.inr h2
      · exact Or.inl (Or.inr ⟨h, h1, h2⟩)

/-- C10: for a FilterSet built by `reload_favorite_list`, when the base method
returns the entries of the FilterSet (in any order), the extended method with
`useContacts` set returns a permutation of those entries: same length, no
entry twice, and between its first and its last element the remaining entries
in the order of the base list. -/
theorem C10_ordered_is_permutation (x : Ext) (s : Session) (result : List Contact)
    (hbase : (x.super_get_all_filters_ordered (sidebar_items x s result)).Perm
      (sidebar_items x s result).values) :
    (get_all_filters_ordered true (sidebar_items x s result)
        (x.super_get_all_filters_ordered (sidebar_items x s result))).Perm
      ((sidebar_items x s result).values.map some) ∧
    (get_all_filters_ordered true (sidebar_items x s result)
        (x.super_get_all_filters_ordered (sidebar_items x s result))).length
      = (sidebar_items x s result).values.length ∧
    (get_all_filters_ordered true (sidebar_items x s result)
        (x.super_get_all_filters_ordered (sidebar_items x s result))).Nodup ∧
    ∃ me all, get_all_filters_ordered true (sidebar_items x s result)
        (x.super_get_all_filters_ordered (sidebar_items x s result))
      = [some me]
        ++ ((x.super_get_all_filters_ordered (sidebar_items x s result)).filter
              (fun f => decide (f ≠ me ∧ f ≠ all))).map some
        ++ [some all] := by
  obtain ⟨me, hhead, hmem, hval⟩ := sidebar_items_first x s result
  have hall := sidebar_items_get_all x s result
  have hvnd := Obj.values_nodup _ (sidebar_items_nodup x s result)
    (sidebar_items_keyed x s result)
  have hne : me ≠ filter_item_all x := by
    intro e
    rw [e] at hval
    exact hval rfl
  have hshape : get_all_filters_ordered true (sidebar_items x s result)
        (x.super_get_all_filters_ordered (sidebar_items x s result))
      = ([me] ++ (x.super_get_all_filters_ordered (sidebar_items x s result)).filter
              (fun f => decide (f ≠ me ∧ f ≠ filter_item_all x))
            ++ [filter_item_all x]).map some := by
    simp only [get_all_filters_ordered, if_true, hhead, hall, difference_map_some,
      List.map_append, List.map_cons, List.map_nil]
  obtain ⟨hperm, hnd⟩ := reorder_perm
    (x.super_get_all_filters_ordered (sidebar_items x s result)) me (filter_item_all x)
    (hbase.nodup_iff.2 hvnd) (hbase.mem_iff.2 hmem)
    (hbase.mem_iff.2 (Obj.mem_values_of_get _ _ _ hall)) hne
  refine ⟨?_, ?_, ?_, me, filter_item_all x, ?_⟩
  · rw [hshape]
    exact (hperm.trans hbase).map some
  · rw [hshape, List.length_map]
    exact (hperm.trans hbase).length_eq
  · rw [hshape]
    exact hnd.map (Option.some_injective _)
  · rw [hshape]
    simp only [List.map_append, List.map_cons, List.map_nil]

/-- C10, witness: current user 7, contacts 12 and 3, the base method returning
the entries in reverse enumeration order. -/
theorem C10_ordered_is_permutation_witness :
    List.Perm
      (reversedExt.super_get_all_filters_ordered
        (sidebar_items reversedExt demoSession
          [{ partner_id := (12, "Alice") }, { partner_id := (3, "Bob") }]))
      (sidebar_items reversedExt demoSession
        [{ partner_id := (12, "Alice") }, { partner_id := (3, "Bob") }]).values ∧
    (get_all_filters_ordered true
        (sidebar_items reversedExt demoSession
          [{ partner_id := (12, "Alice") }, { partner_id := (3, "Bob") }])
        (reversedExt.super_get_all_filters_ordered
          (sidebar_items reversedExt demoSession
            [{ partner_id := (12, "Alice") }, { partner_id := (3, "Bob") }]))).length
      = (sidebar_items reversedExt demoSession
          [{ partner_id := (12, "Alice") }, { partner_id := (3, "Bob") }]).values.length :=
  ⟨List.reverse_perm _,
    (C10_ordered_is_permutation reversedExt demoSession
      [{ partner_id := (12, "Alice") }, { partner_id := (3, "Bob") }]
      (List.reverse_perm _)).2.1⟩

/-- C2, at the failing input: current user 7 and one returned contact, partner
3.  The name "3" is enumerated before "7", so `filter_me` is the entry of
partner 3 and the ordered list starts with it; the entry of the current user
comes second, the entry -1 last. -/
theorem C2_first_entry_is_lowest_partner_id :
    ((reload_favorite_list demoExt demoSession (demoReplies [{ partner_id := (3, "Bob") }])
        (demoWorld [])).2.view.get_all_filters_ordered demoExt).map
        (fun o => o.map (fun f => f.value))
      = [some 3, some 7, some (-1)] ∧
    ((reload_favorite_list demoExt demoSession (demoReplies [{ partner_id := (3, "Bob") }])
        (demoWorld [])).2.view.get_all_filters_ordered demoExt).head?
      = some (some { value := 3, label := "Bob", color := 3, avatar_model := "res.partner",
                     is_checked := true, can_be_removed := some true }) := by
  decide

/-- Whatever the base method returns, the list of the extended method starts
with the first entry of the FilterSet in enumeration order and ends with the
entry read under -1. -/
theorem get_all_filters_ordered_ends (all_filters : Obj FilterEntry)
    (filters : List FilterEntry) :
    (get_all_filters_ordered true all_filters filters).head? = some all_filters.values.head? ∧
    (get_all_filters_ordered true all_filters filters).getLast? = some (all_filters.get (-1)) := by
  constructor
  · simp [get_all_filters_ordered]
  · simp only [get_all_filters_ordered, if_true]
    exact List.getLast?_concat _

/-! ## Claims on the combo-box -/

/-- C6: the combo-box created by `initialize_m2o`, and so the one recreated by
`reinitialize_m2o`, answers `get_search_blacklist` with the base blacklist
followed by the values of the view's current FilterSet: the value of every
entry of the FilterSet is in it, and every element of it comes from the base
blacklist or is such a value. -/
theorem C6_blacklist_is_filter_values (x : Ext) (w : World) :
    (initialize_m2o w).m2o.get_search_blacklist x
      = x.super_get_search_blacklist
          ++ w.view.all_filters.values.map (fun o => JSVal.num o.value) ∧
    (reinitialize_m2o w).m2o.get_search_blacklist x
      = x.super_get_search_blacklist
          ++ w.view.all_filters.values.map (fun o => JSVal.num o.value) ∧
    (∀ k e, w.view.all_filters.get k = some e →
      JSVal.num e.value ∈ (initialize_m2o w).m2o.get_search_blacklist x) ∧
    (∀ v, v ∈ (initialize_m2o w).m2o.get_search_blacklist x →
      v ∈ x.super_get_search_blacklist ∨
        ∃ e ∈ w.view.all_filters.values, v = JSVal.num e.value) := by
  have h1 : (initialize_m2o w).m2o.get_search_blacklist x
      = x.super_get_search_blacklist
          ++ w.view.all_filters.values.map (fun o => JSVal.num o.value) := by
    simp [initialize_m2o, SidebarFilterM2O.set_filter_ids,
      SidebarFilterM2O.get_search_blacklist, pluck_value, World.emit, List.map_map,
      Function.comp_def]
  have h2 : (reinitialize_m2o w).m2o.get_search_blacklist x
      = x.super_get_search_blacklist
          ++ w.view.all_filters.values.map (fun o => JSVal.num o.value) := by
    simp [reinitialize_m2o, initialize_m2o, SidebarFilterM2O.set_filter_ids,
      SidebarFilterM2O.get_search_blacklist, pluck_value, World.emit, List.map_map,
      Function.comp_def]
  refine ⟨h1, h2, ?_, ?_⟩
  · intro k e he
    rw [h1]
    exact List.mem_append_right _
      (List.mem_map.2 ⟨e, Obj.mem_values_of_get _ k e he, rfl⟩)
  · intro v hv
    rw [h1] at hv
    rcases List.mem_append.1 hv with h | h
    · exact Or.inl h
    · obtain ⟨e, he, rfl⟩ := List.mem_map.1 h
      exact Or.inr ⟨e, he, rfl⟩

/-! ## Claims on `add_filter` and `destroy_filter` -/

/-- The comparison `session.partner_id !== index` of line 142 holds for every
property name: no selected identifier is left out. -/
theorem add_filter_defs_eq (s : Session) (display_value : Obj String) :
    add_filter_defs s display_value = display_value.keys.map keyString := by
  unfold add_filter_defs
  apply List.filter_eq_self.2
  intro v hv
  obtain ⟨k, _, rfl⟩ := List.mem_map.1 hv
  rfl

/-- C3, at the failing input: current user 7, selection {7, 12}.  The loop of
lines 141-145 pushes two create calls, one of them for the current user's own
identifier: the callback's `index` is the string "7", which `!==` tells apart
from the number 7. -/
theorem C3_create_issued_for_own_partner :
    add_filter_defs demoSession [(7, "Admin"), (12, "Alice")]
      = [JSVal.str "7", JSVal.str "12"] := by
  decide

/-- C8, at the failing input: current user 7, selection {12}, the create call
is rejected.  The loop pushes the one create call and the promise of
`$.when.apply(null, defs)` is rejected; this is as far as the code of
`add_filter` is well formed. -/
theorem C8_when_rejected_at_failing_input :
    add_filter_defs demoSession [(12, "Alice")] = [JSVal.str "12"] ∧
    when_all rejectingReplies (add_filter_defs demoSession [(12, "Alice")]) = .rejected := by
  decide

/-- The sibling chain of `destroy_filter`: once the dialog is confirmed and the
unlink call and the reload succeed, the three steps run once each, in the
order reload, rebuild, notify, each after the effects of the one before. -/
theorem destroy_filter_chain (x : Ext) (s : Session) (r : Replies) (id : Int) (w : World)
    (result : List Contact) (hconf : r.confirm = true) (hun : r.unlink = true)
    (hb : r.is_bound = true) (hc : r.contacts = some result) :
    (destroy_filter x s r id w).1 = some (.returned .resolved) ∧
    (destroy_filter x s r id w).2.log
      = w.log ++
        [ .confirm_dialog, .unlink_from_partner_id id,
          .enter "reload_favorite_list", .query_contacts s.uid,
          .events_loaded (get_all_filters_ordered w.view.useContacts (sidebar_items x s result)
            (x.super_get_all_filters_ordered (sidebar_items x s result))),
          .set_filters,
          .enter "reinitialize_m2o", .dfm_destroy,
          .m2o_appendTo (some (pluck_value (sidebar_items x s result))),
          .trigger_up "reload_events" ] := by
  simp [destroy_filter, confirm_callback, call_then, bind, Except.bind, Task.andThen,
    Task.ofSync, unlink_call, reload_favorite_list, reinitialize_m2o, initialize_m2o, trigger_up, World.emit,
    SidebarFilterM2O.set_filter_ids, CalendarView.get_all_filters_ordered, hconf, hun, hb, hc]

/-- The sibling chain when the unlink call is rejected: the chain is rejected,
none of the three steps is entered, the view and the combo-box stay as they
were. -/
theorem destroy_filter_rejected (x : Ext) (s : Session) (r : Replies) (id : Int) (w : World)
    (hconf : r.confirm = true) (hun : r.unlink = false) :
    destroy_filter x s r id w
      = (some (.returned .rejected),
          { w with log := w.log ++ [.confirm_dialog, .unlink_from_partner_id id] }) := by
  simp [destroy_filter, confirm_callback, call_then, bind, Except.bind, Task.andThen,
    unlink_call, World.emit, hconf, hun]

set_option maxRecDepth 8000 in
/-- C7, at the failing input: the `return` statement of `add_filter` ends with
one parenthesis still open, the one of the first `.then(`, so the three steps
are chained to nothing.  The chain of `destroy_filter` is balanced, and with
current user 7, contact 12 unlinked and every request succeeding it runs the
reload, then the rebuild of the combo-box, then `trigger_up('reload_events')`,
once each. -/
theorem C7_add_filter_chain_left_open :
    open_parens add_filter_return.toList false 0 = some 1 ∧
    open_parens destroy_filter_chain_text.toList false 0 = some 0 ∧
    (destroy_filter demoExt demoSession (demoReplies []) 12 (demoWorld [])).1
      = some (.returned .resolved) ∧
    (destroy_filter demoExt demoSession (demoReplies []) 12 (demoWorld [])).2.log
      = [ .confirm_dialog, .unlink_from_partner_id 12,
          .enter "reload_favorite_list", .query_contacts 1,
          .events_loaded
            [some { value := 7, label := "Admin [Me]", color := 7,
                    avatar_model := "res.partner", is_checked := true, can_be_removed := none },
             some { value := -1, label := "Everybody's calendars", color := 0,
                    avatar_model := "res.partner", is_checked := false,
                    can_be_removed := none }],
          .set_filters,
          .enter "reinitialize_m2o", .dfm_destroy, .m2o_appendTo (some [7, -1]),
          .trigger_up "reload_events" ] := by
  decide

/-! ## Claims on the notification poller -/

/-- C4: the failure handler of the poll calls `preventDefault` on the failure
event exactly when the error's code is the number -32098, and then the failure
does not reach the global reporter; for every other code the event is returned
as it was, so a failure that was not prevented before still reaches the
reporter. -/
theorem C4_fail_handler_suppresses_only_32098 (err : RpcError) (ev : FailEvent) :
    (err.code = .num (-32098) →
      get_next_notif_fail err ev = ev.preventDefault ∧
      reaches_global_reporter (get_next_notif_fail err ev) = false) ∧
    (err.code ≠ .num (-32098) → get_next_notif_fail err ev = ev) ∧
    (reaches_global_reporter (get_next_notif_fail err { defaultPrevented := false }) = false
      ↔ err.code = .num (-32098)) := by
  have key : strictEq err.code (.num (-32098)) = true ↔ err.code = .num (-32098) := by
    cases h : err.code with
    | undefined => simp [strictEq]
    | num n => simp [strictEq]
    | str t => simp [strictEq]
  by_cases hcode : err.code = .num (-32098)
  · have hs := key.2 hcode
    have hfail : ∀ e : FailEvent, get_next_notif_fail err e = e.preventDefault := by
      intro e
      simp only [get_next_notif_fail, hs, if_true]
    refine ⟨fun _ => ⟨hfail ev, ?_⟩, fun h => absurd hcode h, ?_⟩
    · rw [hfail]
      rfl
    · rw [hfail]
      exact ⟨fun _ => hcode, fun _ => rfl⟩
  · have hs : strictEq err.code (.num (-32098)) = false := by
      cases hq : strictEq err.code (.num (-32098))
      · rfl
      · exact absurd (key.1 hq) hcode
    simp [get_next_notif_fail, hs, hcode, reaches_global_reporter]

theorem timer_callback_nodup (res : NotifRecord) (displayed : List CalendarNotification)
    (h : (displayed.map (fun n => n.eid)).Nodup) :
    ((timer_callback res displayed).map (fun n => n.eid)).Nodup := by
  unfold timer_callback
  split
  · rename_i hlen
    have hnil : find_eid displayed res.event_id = [] := List.length_eq_zero.1 hlen
    rw [List.map_append]
    refine List.Nodup.append h (List.nodup_singleton _) ?_
    intro a ha hb
    simp only [List.map_cons, List.map_nil, List.mem_singleton] at hb
    obtain ⟨n, hn, rfl⟩ := List.mem_map.1 ha
    have hin : n ∈ find_eid displayed res.event_id :=
      List.mem_filter.2 ⟨hn, decide_eq_true hb⟩
    rw [hnil] at hin
    exact List.not_mem_nil _ hin
  · exact h

theorem step_nodup (st : PollState) (ev : PollEvent)
    (h : (st.displayed.map (fun n => n.eid)).Nodup) :
    (((st.step ev).displayed).map (fun n => n.eid)).Nodup := by
  cases ev with
  | response result => exact h
  | fire i =>
    simp only [PollState.step]
    cases hp : st.pending.get? i with
    | none => exact h
    | some res => exact timer_callback_nodup res st.displayed h
  | close i =>
    simp only [PollState.step]
    exact h.sublist ((List.eraseIdx_sublist _ _).map _)

theorem foldl_step_nodup (events : List PollEvent) :
    ∀ st : PollState, (st.displayed.map (fun n => n.eid)).Nodup →
      (((events.foldl PollState.step st).displayed).map (fun n => n.eid)).Nodup := by
  induction events with
  | nil => intro st h; exact h
  | cons ev rest ih =>
    intro st h
    exact ih _ (step_nodup st ev h)

/-- C5: after any sequence of poll responses, timer firings and closings no two
displayed notifications carry the same event id; a firing timer leaves the
displayed notifications as they are when one of them is tagged with the
record's event id, and it adds a notification only when none is. -/
theorem C5_dedup_one_notification_per_event (events : List PollEvent) :
    (((PollState.run events).displayed).map (fun n => n.eid)).Nodup ∧
    (∀ (res : NotifRecord) (displayed : List CalendarNotification),
      (∃ n ∈ displayed, n.eid = res.event_id) → timer_callback res displayed = displayed) ∧
    (∀ (res : NotifRecord) (displayed : List CalendarNotification),
      timer_callback res displayed ≠ displayed →
        (∀ n ∈ displayed, n.eid ≠ res.event_id) ∧
        timer_callback res displayed
          = displayed ++ [{ title := res.title, text := res.message, eid := res.event_id }]) := by
  refine ⟨foldl_step_nodup events _ (by simp), ?_, ?_⟩
  · rintro res displayed ⟨n, hn, he⟩
    have hin : n ∈ find_eid displayed res.event_id :=
      List.mem_filter.2 ⟨hn, decide_eq_true he⟩
    have hlen : (find_eid displayed res.event_id).length ≠ 0 := by
      intro h0
      rw [List.length_eq_zero.1 h0] at hin
      exact List.not_mem_nil _ hin
    simp [timer_callback, hlen]
  · intro res displayed hne
    by_cases hlen : (find_eid displayed res.event_id).length = 0
    · refine ⟨?_, by simp [timer_callback, hlen]⟩
      intro n hn he
      have hin : n ∈ find_eid displayed res.event_id :=
        List.mem_filter.2 ⟨hn, decide_eq_true he⟩
      rw [List.length_eq_zero.1 hlen] at hin
      exact List.not_mem_nil _ hin
    · exact absurd (by simp [timer_callback, hlen]) hne

end BaseCalendar
